import Mathlib

/-!
Verification development for `train_regression_model_CV.py`, a cross-validation
training and evaluation script for an ordinal medical-image grading task.

Real-valued quantities of the script (validation accuracies, thresholds,
regression outputs) are embedded as rationals; the early-stopping threshold is
an integer because the CLI parses it with `type=int`.  The per-epoch validation
accuracies produced by the training and validation passes are treated as an
arbitrary input sequence, since they depend on the data and the model.
-/

/-- Modelled from the spec: `get_regression_accuracy_with_boundaries` and
`get_test_results_regression` live in `utils/provider`, which is not among the
sources here.  Per the spec they map a continuous regression output to an
ordinal class label by a three-way comparison against fixed cut points
(`b0 = 0.5`, `b1 = 1.5`, `b2 = 2.5` at every call site). -/
def regressionToClass (b0 b1 b2 : ℚ) (x : ℚ) : ℕ :=
  if x < b0 then 0
  else if x < b1 then 1
  else if x < b2 then 2
  else 3

/-- The mutable per-experiment training state of `run_experiment`:
`best_acc` and `early_stop_counter` are its (defaulted) parameters, and
`saves` counts the `torch.save` checkpoint writes performed so far. -/
structure TrainState where
  best_acc : ℚ
  early_stop_counter : ℕ
  saves : ℕ
deriving Repr, DecidableEq

/-- `run_experiment` is called with the default `best_acc=0`,
`early_stop_counter=0`, and no checkpoint written yet. -/
def initState : TrainState :=
  { best_acc := 0, early_stop_counter := 0, saves := 0 }

/-- The end-of-epoch bookkeeping of `run_experiment` (lines 223-230):
on `val_accuracy > best_acc * (1 + best_threshold)` the stall counter resets,
`best_acc` is updated and a checkpoint is saved; otherwise the counter is
incremented and everything else is left unchanged. -/
def epochUpdate (best_threshold : ℚ) (s : TrainState) (val_accuracy : ℚ) : TrainState :=
  if val_accuracy > s.best_acc * (1 + best_threshold) then
    { best_acc := val_accuracy, early_stop_counter := 0, saves := s.saves + 1 }
  else
    { s with early_stop_counter := s.early_stop_counter + 1 }

/-- The epoch loop of `run_experiment` (lines 201-234), abstracted over the
sequence `vals` of per-epoch validation accuracies (one entry per potential
epoch, so `vals.length` plays the role of `num_epoch`).  Each iteration
performs the end-of-epoch update and then breaks out of the loop when
`early_stop_counter >= early_stopping_thresh`.  The result is the number of
epochs actually executed. -/
def runLoop (best_threshold : ℚ) (early_stopping_thresh : ℤ) (s : TrainState) :
    List ℚ → ℕ
  | [] => 0
  | v :: rest =>
    let s2 := epochUpdate best_threshold s v
    if early_stopping_thresh ≤ (s2.early_stop_counter : ℤ) then 1
    else 1 + runLoop best_threshold early_stopping_thresh s2 rest

/-- The training state reached after processing a whole list of per-epoch
validation accuracies (ignoring the break, i.e. the trajectory of the loop
body). -/
def stateAfterEpochs (best_threshold : ℚ) (s : TrainState) (vs : List ℚ) : TrainState :=
  vs.foldl (epochUpdate best_threshold) s

/-- The break condition of the epoch loop as observed at the end of epoch `j`
(0-based): after the updates of epochs `0..j`, the stall counter has reached
`early_stopping_thresh`. -/
def breakCond (best_threshold : ℚ) (early_stopping_thresh : ℤ) (s : TrainState)
    (vals : List ℚ) (j : ℕ) : Prop :=
  early_stopping_thresh ≤
    ((stateAfterEpochs best_threshold s (vals.take (j + 1))).early_stop_counter : ℤ)

instance (bt : ℚ) (est : ℤ) (s : TrainState) (vals : List ℚ) (j : ℕ) :
    Decidable (breakCond bt est s vals j) := by
  unfold breakCond; infer_instance

/-- The checkpoint path written by `run_experiment` (line 228). -/
def checkpointSavePath (model_name : String) (experiment_id : ℕ) : String :=
  "weights/best_R_" ++ model_name ++ "_" ++ toString experiment_id ++ ".pth.tar"

/-- The checkpoint path read back by `get_test_set_results` (line 114). -/
def checkpointLoadPath (model_name : String) (id : ℕ) : String :=
  "weights/best_R_" ++ model_name ++ "_" ++ toString id ++ ".pth.tar"

/-- The optimizer cases of `run_experiment` (lines 182-193). -/
inductive OptimizerChoice where
  | adamW_layerDecay
  | adam
  | adamW
  | sgd
deriving Repr, DecidableEq

/-- The optimizer-selection chain of `run_experiment` (lines 182-193):
`AdamW` with `layer_decay > 0` builds layer-wise decayed parameter groups,
then `Adam`, plain `AdamW` and `SGD` are matched, and any other name raises
`Exception("Undefined optimizer name")`. -/
def selectOptimizer (optimizer_name : String) (layer_decay : ℚ) :
    Except String OptimizerChoice :=
  if optimizer_name = "AdamW" ∧ layer_decay > 0 then .ok .adamW_layerDecay
  else if optimizer_name = "Adam" then .ok .adam
  else if optimizer_name = "AdamW" then .ok .adamW
  else if optimizer_name = "SGD" then .ok .sgd
  else .error "Undefined optimizer name"

/-- `run_experiment` as a whole: the optimizer is selected before the epoch
loop starts, so an unrecognized optimizer name propagates the exception and no
training epoch runs; otherwise the epoch loop executes and the number of
executed epochs is returned. -/
def run_experiment (optimizer_name : String) (layer_decay : ℚ)
    (best_threshold : ℚ) (early_stopping_thresh : ℤ) (vals : List ℚ) :
    Except String ℕ :=
  match selectOptimizer optimizer_name layer_decay with
  | .error e => .error e
  | .ok _ => .ok (runLoop best_threshold early_stopping_thresh initState vals)

/-- `os.makedirs` on a flat model of the filesystem (the set of existing
directory names): it fails with `FileExistsError` when the directory already
exists and otherwise creates it. -/
def makedirs (dirs : List String) (name : String) : Except Unit (List String) :=
  if name ∈ dirs then .error () else .ok (name :: dirs)

/-- The checkpoint-directory creation of the main block (lines 304-310):
`os.makedirs("weights")` with the `FileExistsError` caught, after which the
program proceeds with the resulting directory set either way. -/
def createWeightsDirectory (dirs : List String) : List String :=
  match makedirs dirs "weights" with
  | .ok dirs2 => dirs2
  | .error _ => dirs

/-- Fold discovery of the main block (lines 319-320): the entries of
`CV_fold_path` whose names start with `"fold"`, sorted. -/
def discoverFolds (entries : List String) : List String :=
  (entries.filter (fun x => x.startsWith "fold")).mergeSort (fun a b => decide (a ≤ b))

/-- The per-fold measurements the main loop extracts from the test-set results
of one fold (precision/recall/F1 per class from
`precision_recall_fscore_support`, the kappa and accuracy scores, the mean
sensitivity/specificity, and the remission-analysis scalars).  Their values
come from `sklearn` on data, so they are inputs of the model. -/
structure FoldMetrics where
  class_precision : List ℚ
  class_recall : List ℚ
  class_f1 : List ℚ
  kappa : ℚ
  weighted_kappa : ℚ
  accuracy : ℚ
  sensitivity : ℚ
  specificity : ℚ
  kappa_r : ℚ
  accuracy_r : ℚ
  precision_r : ℚ
  recall_r : ℚ
  f1_r : ℚ
  sensitivity_r : ℚ
  specificity_r : ℚ
deriving Repr

/-- The metric accumulators of the main block (lines 323-344): the Python
lists start empty and the three `np.zeros([number_of_experiments,
real_num_classes])` matrices are modelled as lists of rows. -/
structure MetricArrays where
  kappa_scores : List ℚ
  weighted_kappa_scores : List ℚ
  accuracies : List ℚ
  sensitivities : List ℚ
  specificities : List ℚ
  macro_precisions : List ℚ
  macro_recalls : List ℚ
  macro_f1s : List ℚ
  class_precisions : List (List ℚ)
  class_recalls : List (List ℚ)
  class_f1s : List (List ℚ)
  precisions_r : List ℚ
  recalls_r : List ℚ
  f1s_r : List ℚ
  kappa_scores_r : List ℚ
  accuracies_r : List ℚ
  sensitivities_r : List ℚ
  specificities_r : List ℚ
deriving Repr

/-- Initial accumulators (lines 323-344) for `n` experiments and
`real_num_classes` classes. -/
def initMetricArrays (n real_num_classes : ℕ) : MetricArrays :=
  { kappa_scores := []
    weighted_kappa_scores := []
    accuracies := []
    sensitivities := []
    specificities := []
    macro_precisions := []
    macro_recalls := []
    macro_f1s := []
    class_precisions := List.replicate n (List.replicate real_num_classes 0)
    class_recalls := List.replicate n (List.replicate real_num_classes 0)
    class_f1s := List.replicate n (List.replicate real_num_classes 0)
    precisions_r := []
    recalls_r := []
    f1s_r := []
    kappa_scores_r := []
    accuracies_r := []
    sensitivities_r := []
    specificities_r := []
    : MetricArrays }

/-- `np.mean` over a row, as used for the macro precision/recall/F1. -/
def listMean (l : List ℚ) : ℚ :=
  l.sum / l.length

/-- One iteration of the main loop (lines 374-417) for fold index `i` with
measurements `m`: each scalar list gets exactly one element appended and row
`i` of each class matrix is assigned. -/
def foldIteration (m : FoldMetrics) (i : ℕ) (a : MetricArrays) : MetricArrays :=
  { kappa_scores := a.kappa_scores ++ [m.kappa]
    weighted_kappa_scores := a.weighted_kappa_scores ++ [m.weighted_kappa]
    accuracies := a.accuracies ++ [m.accuracy]
    sensitivities := a.sensitivities ++ [m.sensitivity]
    specificities := a.specificities ++ [m.specificity]
    macro_precisions := a.macro_precisions ++ [listMean m.class_precision]
    macro_recalls := a.macro_recalls ++ [listMean m.class_recall]
    macro_f1s := a.macro_f1s ++ [listMean m.class_f1]
    class_precisions := a.class_precisions.set i m.class_precision
    class_recalls := a.class_recalls.set i m.class_recall
    class_f1s := a.class_f1s.set i m.class_f1
    precisions_r := a.precisions_r ++ [m.precision_r]
    recalls_r := a.recalls_r ++ [m.recall_r]
    f1s_r := a.f1s_r ++ [m.f1_r]
    kappa_scores_r := a.kappa_scores_r ++ [m.kappa_r]
    accuracies_r := a.accuracies_r ++ [m.accuracy_r]
    sensitivities_r := a.sensitivities_r ++ [m.sensitivity_r]
    specificities_r := a.specificities_r ++ [m.specificity_r] }

/-- The main loop (lines 319-417): discover the fold directories, set
`number_of_experiments` to their count, allocate the accumulators and run one
`foldIteration` per fold (with `real_num_classes = 4`). -/
def runMainLoop (metrics : ℕ → FoldMetrics) (entries : List String) : MetricArrays :=
  (List.range (discoverFolds entries).length).foldl
    (fun a i => foldIteration (metrics i) i a)
    (initMetricArrays (discoverFolds entries).length 4)

/-! ## Theorems -/

/-- C1: the threshold mapper used at training, validation and test time, with
boundaries `[0.5, 1.5, 2.5]`, returns class 0 below 0.5, class 1 between 0.5
and 1.5, class 2 between 1.5 and 2.5, and class 3 above 2.5. -/
theorem regression_threshold_mapper_classes (x : ℚ) :
    (x < 1/2 → regressionToClass (1/2) (3/2) (5/2) x = 0) ∧
    (1/2 < x → x < 3/2 → regressionToClass (1/2) (3/2) (5/2) x = 1) ∧
    (3/2 < x → x < 5/2 → regressionToClass (1/2) (3/2) (5/2) x = 2) ∧
    (5/2 < x → regressionToClass (1/2) (3/2) (5/2) x = 3) := by
  unfold regressionToClass
  refine ⟨?_, ?_, ?_, ?_⟩ <;> intros <;> split_ifs <;> first | rfl | linarith

theorem regression_threshold_mapper_classes_witness :
    regressionToClass (1/2) (3/2) (5/2) 0 = 0 ∧
    regressionToClass (1/2) (3/2) (5/2) 1 = 1 ∧
    regressionToClass (1/2) (3/2) (5/2) 2 = 2 ∧
    regressionToClass (1/2) (3/2) (5/2) 3 = 3 :=
  ⟨(regression_threshold_mapper_classes 0).1 (by norm_num),
   (regression_threshold_mapper_classes 1).2.1 (by norm_num) (by norm_num),
   (regression_threshold_mapper_classes 2).2.2.1 (by norm_num) (by norm_num),
   (regression_threshold_mapper_classes 3).2.2.2 (by norm_num)⟩

/-- C3: in each epoch, on a relative improvement
(`val_accuracy > best_acc * (1 + best_threshold)`) the stall counter resets to
0 and `best_acc` becomes `val_accuracy`; otherwise the counter is incremented
by exactly 1 and `best_acc` is unchanged. -/
theorem epoch_update_counter_and_best (bt : ℚ) (s : TrainState) (v : ℚ) :
    (v > s.best_acc * (1 + bt) →
      (epochUpdate bt s v).early_stop_counter = 0 ∧ (epochUpdate bt s v).best_acc = v) ∧
    (¬ v > s.best_acc * (1 + bt) →
      (epochUpdate bt s v).early_stop_counter = s.early_stop_counter + 1 ∧
      (epochUpdate bt s v).best_acc = s.best_acc) := by
  unfold epochUpdate
  constructor <;> intro h
  · rw [if_pos h]; exact ⟨rfl, rfl⟩
  · rw [if_neg h]; exact ⟨rfl, rfl⟩

theorem epoch_update_counter_and_best_witness :
    (epochUpdate 0 initState 1).early_stop_counter = 0 ∧
    (epochUpdate 0 initState 1).best_acc = 1 :=
  (epoch_update_counter_and_best 0 initState 1).1 (by norm_num [initState])

/-- C4: a checkpoint write (a `torch.save` call, counted by `saves`) happens
in an epoch exactly when `val_accuracy > best_acc * (1 + best_threshold)`; in
all other epochs the checkpoint on disk is untouched. -/
theorem checkpoint_written_iff_improvement (bt : ℚ) (s : TrainState) (v : ℚ) :
    ((epochUpdate bt s v).saves = s.saves + 1 ↔ v > s.best_acc * (1 + bt)) ∧
    (¬ v > s.best_acc * (1 + bt) → (epochUpdate bt s v).saves = s.saves) := by
  unfold epochUpdate
  by_cases h : v > s.best_acc * (1 + bt)
  · rw [if_pos h]
    exact ⟨⟨fun _ => h, fun _ => rfl⟩, fun h2 => absurd h h2⟩
  · rw [if_neg h]
    exact ⟨⟨fun heq => absurd heq (Ne.symm (Nat.succ_ne_self _)), fun hv => absurd hv h⟩,
      fun _ => rfl⟩

theorem checkpoint_written_iff_improvement_witness :
    (epochUpdate 0 initState 1).saves = initState.saves + 1 :=
  (checkpoint_written_iff_improvement 0 initState 1).1.mpr (by norm_num [initState])

/-- C5: for every model name and 1-based fold id, the checkpoint path written
by `run_experiment` and the path read back by `get_test_set_results` are the
identical string `weights/best_R_<model>_<fold>.pth.tar`. -/
theorem checkpoint_path_roundtrip (model_name : String) (i : ℕ) :
    checkpointSavePath model_name (i + 1) = checkpointLoadPath model_name (i + 1) ∧
    checkpointSavePath model_name (i + 1) =
      "weights/best_R_" ++ model_name ++ "_" ++ toString (i + 1) ++ ".pth.tar" :=
  ⟨rfl, rfl⟩

/-- C7: an optimizer name outside the recognized cases makes `run_experiment`
raise `Exception("Undefined optimizer name")` before any epoch runs, and every
recognized name (`Adam`, `AdamW` with or without positive `layer_decay`,
`SGD`) selects an optimizer and proceeds to the epoch loop. -/
theorem undefined_optimizer_raises (name : String) (ld bt : ℚ) (est : ℤ) (vals : List ℚ) :
    (name ≠ "Adam" ∧ name ≠ "AdamW" ∧ name ≠ "SGD" →
      run_experiment name ld bt est vals = .error "Undefined optimizer name") ∧
    (name = "Adam" ∨ name = "AdamW" ∨ name = "SGD" →
      run_experiment name ld bt est vals = .ok (runLoop bt est initState vals)) := by
  constructor
  · rintro ⟨h1, h2, h3⟩
    simp [run_experiment, selectOptimizer, h1, h2, h3]
  · rintro (h | h | h) <;> subst h <;>
      simp only [run_experiment, selectOptimizer] <;> split_ifs <;> simp_all

theorem undefined_optimizer_raises_witness :
    run_experiment "RMSprop" 0 0 5 [] = .error "Undefined optimizer name" :=
  (undefined_optimizer_raises "RMSprop" 0 0 5 []).1 ⟨by decide, by decide, by decide⟩

/-- C8: creating the `weights` checkpoint directory is idempotent: the
`FileExistsError` for a pre-existing directory is caught and the program
proceeds with the directory set unchanged, while a missing directory is
created; either way `weights` exists afterwards. -/
theorem weights_directory_creation_idempotent (dirs : List String) :
    ("weights" ∈ dirs → createWeightsDirectory dirs = dirs) ∧
    ("weights" ∉ dirs → createWeightsDirectory dirs = "weights" :: dirs) ∧
    "weights" ∈ createWeightsDirectory dirs := by
  unfold createWeightsDirectory makedirs
  by_cases h : "weights" ∈ dirs
  · rw [if_pos h]
    exact ⟨fun _ => rfl, fun h2 => absurd h h2, h⟩
  · rw [if_neg h]
    exact ⟨fun h2 => absurd h2 h, fun _ => rfl, List.mem_cons_self _ _⟩

theorem weights_directory_creation_idempotent_witness :
    createWeightsDirectory [] = ["weights"] ∧
    createWeightsDirectory ["weights"] = ["weights"] :=
  ⟨(weights_directory_creation_idempotent []).2.1 (by simp),
   (weights_directory_creation_idempotent ["weights"]).1 (by simp)⟩

/-- C9: with a non-positive early-stopping threshold, the epoch loop executes
exactly one epoch and then breaks regardless of improvement, because the
counter test runs after the counter update and even a counter reset to 0
already satisfies it. -/
theorem nonpositive_early_stop_one_epoch (bt : ℚ) (est : ℤ) (hest : est ≤ 0)
    (vals : List ℚ) (hlen : 1 ≤ vals.length) :
    runLoop bt est initState vals = 1 := by
  cases vals with
  | nil => simp at hlen
  | cons v rest =>
    unfold runLoop
    rw [if_pos (le_trans hest (Int.natCast_nonneg _))]

theorem nonpositive_early_stop_one_epoch_witness :
    runLoop 0 0 initState [1, 2, 3] = 1 :=
  nonpositive_early_stop_one_epoch 0 0 (by norm_num) [1, 2, 3] (by simp)

/-- Unfolding equation of the epoch loop on a non-empty epoch list. -/
theorem runLoop_cons (bt : ℚ) (est : ℤ) (s : TrainState) (v : ℚ) (rest : List ℚ) :
    runLoop bt est s (v :: rest) =
      if est ≤ (((epochUpdate bt s v).early_stop_counter : ℕ) : ℤ) then 1
      else 1 + runLoop bt est (epochUpdate bt s v) rest := by
  rw [runLoop]

/-- Shifting the break condition across the first epoch of the list. -/
theorem breakCond_cons_succ (bt : ℚ) (est : ℤ) (s : TrainState) (v : ℚ)
    (rest : List ℚ) (j : ℕ) :
    breakCond bt est s (v :: rest) (j + 1) ↔ breakCond bt est (epochUpdate bt s v) rest j :=
  Iff.rfl

/-- The break condition at epoch 0 is the counter test after the first
update. -/
theorem breakCond_cons_zero (bt : ℚ) (est : ℤ) (s : TrainState) (v : ℚ)
    (rest : List ℚ) :
    breakCond bt est s (v :: rest) 0 ↔
      est ≤ (((epochUpdate bt s v).early_stop_counter : ℕ) : ℤ) :=
  Iff.rfl

/-- Characterization of the epoch loop, for an arbitrary starting state: it
never runs more epochs than `num_epoch`; it executes a further epoch exactly
while the end-of-epoch counter test fails; and if it halts short of
`num_epoch`, the counter test held at the end of its last executed epoch. -/
theorem runLoop_characterization (bt : ℚ) (est : ℤ) :
    ∀ (vals : List ℚ) (s : TrainState),
      runLoop bt est s vals ≤ vals.length ∧
      (∀ j, j + 1 < runLoop bt est s vals → ¬ breakCond bt est s vals j) ∧
      (runLoop bt est s vals < vals.length →
        0 < runLoop bt est s vals ∧
        breakCond bt est s vals (runLoop bt est s vals - 1))
  | [], s => by simp [runLoop]
  | v :: rest, s => by
    obtain ⟨ih1, ih2, ih3⟩ := runLoop_characterization bt est rest (epochUpdate bt s v)
    by_cases hbr : est ≤ (((epochUpdate bt s v).early_stop_counter : ℕ) : ℤ)
    · have hr : runLoop bt est s (v :: rest) = 1 := by
        rw [runLoop_cons, if_pos hbr]
      refine ⟨?_, ?_, ?_⟩
      · rw [hr]; simp
      · intro j hj; rw [hr] at hj; omega
      · intro _
        rw [hr]
        exact ⟨Nat.one_pos, (breakCond_cons_zero bt est s v rest).mpr hbr⟩
    · have hr : runLoop bt est s (v :: rest) =
          1 + runLoop bt est (epochUpdate bt s v) rest := by
        rw [runLoop_cons, if_neg hbr]
      refine ⟨?_, ?_, ?_⟩
      · rw [hr]; simp only [List.length_cons]; omega
      · intro j hj
        rw [hr] at hj
        cases j with
        | zero => exact fun hb => hbr ((breakCond_cons_zero bt est s v rest).mp hb)
        | succ k =>
          have hk : k + 1 < runLoop bt est (epochUpdate bt s v) rest := by omega
          exact fun hb =>
            ih2 k hk ((breakCond_cons_succ bt est s v rest k).mp hb)
      · intro hlt
        rw [hr] at hlt ⊢
        simp only [List.length_cons] at hlt
        have hlt2 : runLoop bt est (epochUpdate bt s v) rest < rest.length := by omega
        obtain ⟨hpos, hbrk⟩ := ih3 hlt2
        refine ⟨by omega, ?_⟩
        have hidx : 1 + runLoop bt est (epochUpdate bt s v) rest - 1 =
            (runLoop bt est (epochUpdate bt s v) rest - 1) + 1 := by omega
        rw [hidx]
        exact (breakCond_cons_succ bt est s v rest _).mpr hbrk

/-- C2: for every run of the epoch loop, early stopping halts training exactly
when the stall counter reaches the configured threshold at the end of an
epoch: once `early_stop_counter >= early_stopping_thresh` holds at the end of
an epoch no further epoch executes, and no break happens while the counter is
below the threshold. -/
theorem early_stopping_exact_at_threshold (bt : ℚ) (est : ℤ) (vals : List ℚ) :
    runLoop bt est initState vals ≤ vals.length ∧
    (∀ j, j + 1 < runLoop bt est initState vals → ¬ breakCond bt est initState vals j) ∧
    (runLoop bt est initState vals < vals.length →
      0 < runLoop bt est initState vals ∧
      breakCond bt est initState vals (runLoop bt est initState vals - 1)) :=
  runLoop_characterization bt est vals initState

theorem early_stopping_exact_at_threshold_witness :
    0 < runLoop 0 1 initState [0, 0] ∧
    breakCond 0 1 initState [0, 0] (runLoop 0 1 initState [0, 0] - 1) :=
  (early_stopping_exact_at_threshold 0 1 [0, 0]).2.2
    (by norm_num [runLoop, epochUpdate, initState])

/-- One epoch update keeps `best_acc` non-negative. -/
theorem best_acc_nonneg_step (bt : ℚ) (hbt : 0 ≤ bt) (s : TrainState)
    (hs : 0 ≤ s.best_acc) (v : ℚ) : 0 ≤ (epochUpdate bt s v).best_acc := by
  unfold epochUpdate
  split_ifs with h
  · show (0 : ℚ) ≤ v
    have hmul : (0 : ℚ) ≤ s.best_acc * (1 + bt) := mul_nonneg hs (by linarith)
    linarith
  · exact hs

/-- One epoch update never decreases a non-negative `best_acc`. -/
theorem best_acc_mono_step (bt : ℚ) (hbt : 0 ≤ bt) (s : TrainState)
    (hs : 0 ≤ s.best_acc) (v : ℚ) : s.best_acc ≤ (epochUpdate bt s v).best_acc := by
  unfold epochUpdate
  split_ifs with h
  · show s.best_acc ≤ v
    have hmul : s.best_acc * 1 ≤ s.best_acc * (1 + bt) :=
      mul_le_mul_of_nonneg_left (by linarith) hs
    linarith
  · exact le_refl _

/-- `best_acc` stays non-negative along any epoch trajectory. -/
theorem best_acc_nonneg_after (bt : ℚ) (hbt : 0 ≤ bt) :
    ∀ (vs : List ℚ) (s : TrainState), 0 ≤ s.best_acc →
      0 ≤ (stateAfterEpochs bt s vs).best_acc
  | [], _, hs => hs
  | v :: rest, s, hs =>
    best_acc_nonneg_after bt hbt rest (epochUpdate bt s v)
      (best_acc_nonneg_step bt hbt s hs v)

/-- C10: starting from `best_acc = 0` and with `best_threshold >= 0`,
`best_acc` is non-negative after any number of epochs, never decreases from
one epoch to the next, and every reassignment
(`val_accuracy > best_acc * (1 + best_threshold)`) strictly increases it. -/
theorem best_acc_monotone_nonneg (bt : ℚ) (hbt : 0 ≤ bt) (vals : List ℚ) (k : ℕ) :
    0 ≤ (stateAfterEpochs bt initState (vals.take k)).best_acc ∧
    (stateAfterEpochs bt initState (vals.take k)).best_acc ≤
      (stateAfterEpochs bt initState (vals.take (k + 1))).best_acc ∧
    ∀ v, (stateAfterEpochs bt initState (vals.take k)).best_acc * (1 + bt) < v →
      (stateAfterEpochs bt initState (vals.take k)).best_acc <
        (epochUpdate bt (stateAfterEpochs bt initState (vals.take k)) v).best_acc := by
  have h0 : 0 ≤ (stateAfterEpochs bt initState (vals.take k)).best_acc :=
    best_acc_nonneg_after bt hbt (vals.take k) initState (le_refl 0)
  refine ⟨h0, ?_, ?_⟩
  · rw [List.take_succ]
    unfold stateAfterEpochs
    rw [List.foldl_append]
    cases hk : vals[k]? with
    | none => exact le_refl _
    | some v =>
      exact best_acc_mono_step bt hbt _ h0 v
  · intro v hv
    unfold epochUpdate
    rw [if_pos hv]
    show (stateAfterEpochs bt initState (vals.take k)).best_acc < v
    calc (stateAfterEpochs bt initState (vals.take k)).best_acc
        = (stateAfterEpochs bt initState (vals.take k)).best_acc * 1 := by ring
      _ ≤ (stateAfterEpochs bt initState (vals.take k)).best_acc * (1 + bt) :=
          mul_le_mul_of_nonneg_left (by linarith) h0
      _ < v := hv

theorem best_acc_monotone_nonneg_witness :
    (stateAfterEpochs 0 initState ([1, 2].take 0)).best_acc ≤
      (stateAfterEpochs 0 initState ([1, 2].take 1)).best_acc :=
  (best_acc_monotone_nonneg 0 (le_refl 0) [1, 2] 0).2.1


/-- Per-field unfolding of one main-loop iteration (append fields). -/
theorem foldIteration_kappa_scores (m : FoldMetrics) (i : ℕ) (a : MetricArrays) :
    (foldIteration m i a).kappa_scores = a.kappa_scores ++ [m.kappa] := rfl

theorem foldIteration_weighted_kappa_scores (m : FoldMetrics) (i : ℕ) (a : MetricArrays) :
    (foldIteration m i a).weighted_kappa_scores = a.weighted_kappa_scores ++ [m.weighted_kappa] := rfl

theorem foldIteration_accuracies (m : FoldMetrics) (i : ℕ) (a : MetricArrays) :
    (foldIteration m i a).accuracies = a.accuracies ++ [m.accuracy] := rfl

theorem foldIteration_sensitivities (m : FoldMetrics) (i : ℕ) (a : MetricArrays) :
    (foldIteration m i a).sensitivities = a.sensitivities ++ [m.sensitivity] := rfl

theorem foldIteration_specificities (m : FoldMetrics) (i : ℕ) (a : MetricArrays) :
    (foldIteration m i a).specificities = a.specificities ++ [m.specificity] := rfl

theorem foldIteration_macro_precisions (m : FoldMetrics) (i : ℕ) (a : MetricArrays) :
    (foldIteration m i a).macro_precisions = a.macro_precisions ++ [listMean m.class_precision] := rfl

theorem foldIteration_macro_recalls (m : FoldMetrics) (i : ℕ) (a : MetricArrays) :
    (foldIteration m i a).macro_recalls = a.macro_recalls ++ [listMean m.class_recall] := rfl

theorem foldIteration_macro_f1s (m : FoldMetrics) (i : ℕ) (a : MetricArrays) :
    (foldIteration m i a).macro_f1s = a.macro_f1s ++ [listMean m.class_f1] := rfl

theorem foldIteration_precisions_r (m : FoldMetrics) (i : ℕ) (a : MetricArrays) :
    (foldIteration m i a).precisions_r = a.precisions_r ++ [m.precision_r] := rfl

theorem foldIteration_recalls_r (m : FoldMetrics) (i : ℕ) (a : MetricArrays) :
    (foldIteration m i a).recalls_r = a.recalls_r ++ [m.recall_r] := rfl

theorem foldIteration_f1s_r (m : FoldMetrics) (i : ℕ) (a : MetricArrays) :
    (foldIteration m i a).f1s_r = a.f1s_r ++ [m.f1_r] := rfl

theorem foldIteration_kappa_scores_r (m : FoldMetrics) (i : ℕ) (a : MetricArrays) :
    (foldIteration m i a).kappa_scores_r = a.kappa_scores_r ++ [m.kappa_r] := rfl

theorem foldIteration_accuracies_r (m : FoldMetrics) (i : ℕ) (a : MetricArrays) :
    (foldIteration m i a).accuracies_r = a.accuracies_r ++ [m.accuracy_r] := rfl

theorem foldIteration_sensitivities_r (m : FoldMetrics) (i : ℕ) (a : MetricArrays) :
    (foldIteration m i a).sensitivities_r = a.sensitivities_r ++ [m.sensitivity_r] := rfl

theorem foldIteration_specificities_r (m : FoldMetrics) (i : ℕ) (a : MetricArrays) :
    (foldIteration m i a).specificities_r = a.specificities_r ++ [m.specificity_r] := rfl

/-- Per-field unfolding of one main-loop iteration (row-assignment fields). -/
theorem foldIteration_class_precisions (m : FoldMetrics) (i : ℕ) (a : MetricArrays) :
    (foldIteration m i a).class_precisions = a.class_precisions.set i m.class_precision := rfl

theorem foldIteration_class_recalls (m : FoldMetrics) (i : ℕ) (a : MetricArrays) :
    (foldIteration m i a).class_recalls = a.class_recalls.set i m.class_recall := rfl

theorem foldIteration_class_f1s (m : FoldMetrics) (i : ℕ) (a : MetricArrays) :
    (foldIteration m i a).class_f1s = a.class_f1s.set i m.class_f1 := rfl
/-- Folded main-loop iterations extend `kappa_scores` by one element per fold. -/
theorem foldl_length_kappa_scores (metrics : ℕ → FoldMetrics) :
    ∀ (l : List ℕ) (a : MetricArrays),
      (l.foldl (fun st i => foldIteration (metrics i) i st) a).kappa_scores.length
        = a.kappa_scores.length + l.length
  | [], a => by simp
  | i :: t, a => by
    have h := foldl_length_kappa_scores metrics t (foldIteration (metrics i) i a)
    simp only [foldIteration_kappa_scores, List.length_append, List.length_singleton] at h
    simp only [List.foldl_cons, List.length_cons]
    omega

/-- Folded main-loop iterations extend `weighted_kappa_scores` by one element per fold. -/
theorem foldl_length_weighted_kappa_scores (metrics : ℕ → FoldMetrics) :
    ∀ (l : List ℕ) (a : MetricArrays),
      (l.foldl (fun st i => foldIteration (metrics i) i st) a).weighted_kappa_scores.length
        = a.weighted_kappa_scores.length + l.length
  | [], a => by simp
  | i :: t, a => by
    have h := foldl_length_weighted_kappa_scores metrics t (foldIteration (metrics i) i a)
    simp only [foldIteration_weighted_kappa_scores, List.length_append, List.length_singleton] at h
    simp only [List.foldl_cons, List.length_cons]
    omega

/-- Folded main-loop iterations extend `accuracies` by one element per fold. -/
theorem foldl_length_accuracies (metrics : ℕ → FoldMetrics) :
    ∀ (l : List ℕ) (a : MetricArrays),
      (l.foldl (fun st i => foldIteration (metrics i) i st) a).accuracies.length
        = a.accuracies.length + l.length
  | [], a => by simp
  | i :: t, a => by
    have h := foldl_length_accuracies metrics t (foldIteration (metrics i) i a)
    simp only [foldIteration_accuracies, List.length_append, List.length_singleton] at h
    simp only [List.foldl_cons, List.length_cons]
    omega

/-- Folded main-loop iterations extend `sensitivities` by one element per fold. -/
theorem foldl_length_sensitivities (metrics : ℕ → FoldMetrics) :
    ∀ (l : List ℕ) (a : MetricArrays),
      (l.foldl (fun st i => foldIteration (metrics i) i st) a).sensitivities.length
        = a.sensitivities.length + l.length
  | [], a => by simp
  | i :: t, a => by
    have h := foldl_length_sensitivities metrics t (foldIteration (metrics i) i a)
    simp only [foldIteration_sensitivities, List.length_append, List.length_singleton] at h
    simp only [List.foldl_cons, List.length_cons]
    omega

/-- Folded main-loop iterations extend `specificities` by one element per fold. -/
theorem foldl_length_specificities (metrics : ℕ → FoldMetrics) :
    ∀ (l : List ℕ) (a : MetricArrays),
      (l.foldl (fun st i => foldIteration (metrics i) i st) a).specificities.length
        = a.specificities.length + l.length
  | [], a => by simp
  | i :: t, a => by
    have h := foldl_length_specificities metrics t (foldIteration (metrics i) i a)
    simp only [foldIteration_specificities, List.length_append, List.length_singleton] at h
    simp only [List.foldl_cons, List.length_cons]
    omega

/-- Folded main-loop iterations extend `macro_precisions` by one element per fold. -/
theorem foldl_length_macro_precisions (metrics : ℕ → FoldMetrics) :
    ∀ (l : List ℕ) (a : MetricArrays),
      (l.foldl (fun st i => foldIteration (metrics i) i st) a).macro_precisions.length
        = a.macro_precisions.length + l.length
  | [], a => by simp
  | i :: t, a => by
    have h := foldl_length_macro_precisions metrics t (foldIteration (metrics i) i a)
    simp only [foldIteration_macro_precisions, List.length_append, List.length_singleton] at h
    simp only [List.foldl_cons, List.length_cons]
    omega

/-- Folded main-loop iterations extend `macro_recalls` by one element per fold. -/
theorem foldl_length_macro_recalls (metrics : ℕ → FoldMetrics) :
    ∀ (l : List ℕ) (a : MetricArrays),
      (l.foldl (fun st i => foldIteration (metrics i) i st) a).macro_recalls.length
        = a.macro_recalls.length + l.length
  | [], a => by simp
  | i :: t, a => by
    have h := foldl_length_macro_recalls metrics t (foldIteration (metrics i) i a)
    simp only [foldIteration_macro_recalls, List.length_append, List.length_singleton] at h
    simp only [List.foldl_cons, List.length_cons]
    omega

/-- Folded main-loop iterations extend `macro_f1s` by one element per fold. -/
theorem foldl_length_macro_f1s (metrics : ℕ → FoldMetrics) :
    ∀ (l : List ℕ) (a : MetricArrays),
      (l.foldl (fun st i => foldIteration (metrics i) i st) a).macro_f1s.length
        = a.macro_f1s.length + l.length
  | [], a => by simp
  | i :: t, a => by
    have h := foldl_length_macro_f1s metrics t (foldIteration (metrics i) i a)
    simp only [foldIteration_macro_f1s, List.length_append, List.length_singleton] at h
    simp only [List.foldl_cons, List.length_cons]
    omega

/-- Folded main-loop iterations extend `precisions_r` by one element per fold. -/
theorem foldl_length_precisions_r (metrics : ℕ → FoldMetrics) :
    ∀ (l : List ℕ) (a : MetricArrays),
      (l.foldl (fun st i => foldIteration (metrics i) i st) a).precisions_r.length
        = a.precisions_r.length + l.length
  | [], a => by simp
  | i :: t, a => by
    have h := foldl_length_precisions_r metrics t (foldIteration (metrics i) i a)
    simp only [foldIteration_precisions_r, List.length_append, List.length_singleton] at h
    simp only [List.foldl_cons, List.length_cons]
    omega

/-- Folded main-loop iterations extend `recalls_r` by one element per fold. -/
theorem foldl_length_recalls_r (metrics : ℕ → FoldMetrics) :
    ∀ (l : List ℕ) (a : MetricArrays),
      (l.foldl (fun st i => foldIteration (metrics i) i st) a).recalls_r.length
        = a.recalls_r.length + l.length
  | [], a => by simp
  | i :: t, a => by
    have h := foldl_length_recalls_r metrics t (foldIteration (metrics i) i a)
    simp only [foldIteration_recalls_r, List.length_append, List.length_singleton] at h
    simp only [List.foldl_cons, List.length_cons]
    omega

/-- Folded main-loop iterations extend `f1s_r` by one element per fold. -/
theorem foldl_length_f1s_r (metrics : ℕ → FoldMetrics) :
    ∀ (l : List ℕ) (a : MetricArrays),
      (l.foldl (fun st i => foldIteration (metrics i) i st) a).f1s_r.length
        = a.f1s_r.length + l.length
  | [], a => by simp
  | i :: t, a => by
    have h := foldl_length_f1s_r metrics t (foldIteration (metrics i) i a)
    simp only [foldIteration_f1s_r, List.length_append, List.length_singleton] at h
    simp only [List.foldl_cons, List.length_cons]
    omega

/-- Folded main-loop iterations extend `kappa_scores_r` by one element per fold. -/
theorem foldl_length_kappa_scores_r (metrics : ℕ → FoldMetrics) :
    ∀ (l : List ℕ) (a : MetricArrays),
      (l.foldl (fun st i => foldIteration (metrics i) i st) a).kappa_scores_r.length
        = a.kappa_scores_r.length + l.length
  | [], a => by simp
  | i :: t, a => by
    have h := foldl_length_kappa_scores_r metrics t (foldIteration (metrics i) i a)
    simp only [foldIteration_kappa_scores_r, List.length_append, List.length_singleton] at h
    simp only [List.foldl_cons, List.length_cons]
    omega

/-- Folded main-loop iterations extend `accuracies_r` by one element per fold. -/
theorem foldl_length_accuracies_r (metrics : ℕ → FoldMetrics) :
    ∀ (l : List ℕ) (a : MetricArrays),
      (l.foldl (fun st i => foldIteration (metrics i) i st) a).accuracies_r.length
        = a.accuracies_r.length + l.length
  | [], a => by simp
  | i :: t, a => by
    have h := foldl_length_accuracies_r metrics t (foldIteration (metrics i) i a)
    simp only [foldIteration_accuracies_r, List.length_append, List.length_singleton] at h
    simp only [List.foldl_cons, List.length_cons]
    omega

/-- Folded main-loop iterations extend `sensitivities_r` by one element per fold. -/
theorem foldl_length_sensitivities_r (metrics : ℕ → FoldMetrics) :
    ∀ (l : List ℕ) (a : MetricArrays),
      (l.foldl (fun st i => foldIteration (metrics i) i st) a).sensitivities_r.length
        = a.sensitivities_r.length + l.length
  | [], a => by simp
  | i :: t, a => by
    have h := foldl_length_sensitivities_r metrics t (foldIteration (metrics i) i a)
    simp only [foldIteration_sensitivities_r, List.length_append, List.length_singleton] at h
    simp only [List.foldl_cons, List.length_cons]
    omega

/-- Folded main-loop iterations extend `specificities_r` by one element per fold. -/
theorem foldl_length_specificities_r (metrics : ℕ → FoldMetrics) :
    ∀ (l : List ℕ) (a : MetricArrays),
      (l.foldl (fun st i => foldIteration (metrics i) i st) a).specificities_r.length
        = a.specificities_r.length + l.length
  | [], a => by simp
  | i :: t, a => by
    have h := foldl_length_specificities_r metrics t (foldIteration (metrics i) i a)
    simp only [foldIteration_specificities_r, List.length_append, List.length_singleton] at h
    simp only [List.foldl_cons, List.length_cons]
    omega

/-- Folded main-loop iterations preserve the row count of `class_precisions`. -/
theorem foldl_length_class_precisions (metrics : ℕ → FoldMetrics) :
    ∀ (l : List ℕ) (a : MetricArrays),
      (l.foldl (fun st i => foldIteration (metrics i) i st) a).class_precisions.length
        = a.class_precisions.length
  | [], a => by simp
  | i :: t, a => by
    have h := foldl_length_class_precisions metrics t (foldIteration (metrics i) i a)
    simp only [foldIteration_class_precisions, List.length_set] at h
    simp only [List.foldl_cons]
    omega

/-- Folded main-loop iterations preserve the row count of `class_recalls`. -/
theorem foldl_length_class_recalls (metrics : ℕ → FoldMetrics) :
    ∀ (l : List ℕ) (a : MetricArrays),
      (l.foldl (fun st i => foldIteration (metrics i) i st) a).class_recalls.length
        = a.class_recalls.length
  | [], a => by simp
  | i :: t, a => by
    have h := foldl_length_class_recalls metrics t (foldIteration (metrics i) i a)
    simp only [foldIteration_class_recalls, List.length_set] at h
    simp only [List.foldl_cons]
    omega

/-- Folded main-loop iterations preserve the row count of `class_f1s`. -/
theorem foldl_length_class_f1s (metrics : ℕ → FoldMetrics) :
    ∀ (l : List ℕ) (a : MetricArrays),
      (l.foldl (fun st i => foldIteration (metrics i) i st) a).class_f1s.length
        = a.class_f1s.length
  | [], a => by simp
  | i :: t, a => by
    have h := foldl_length_class_f1s metrics t (foldIteration (metrics i) i a)
    simp only [foldIteration_class_f1s, List.length_set] at h
    simp only [List.foldl_cons]
    omega

/-- C6: after the main loop, every per-fold metric array (the scalar metric
lists, the remission-metric lists, and the first dimension of the per-class
matrices) has length equal to the number of fold directories discovered, and
the discovered folds are exactly the entries whose names start with `fold`
(sorting does not change their count). -/
theorem metric_array_lengths_eq_fold_count (metrics : ℕ → FoldMetrics)
    (entries : List String) :
    (runMainLoop metrics entries).accuracies.length = (discoverFolds entries).length ∧
    (runMainLoop metrics entries).kappa_scores.length = (discoverFolds entries).length ∧
    (runMainLoop metrics entries).weighted_kappa_scores.length = (discoverFolds entries).length ∧
    (runMainLoop metrics entries).sensitivities.length = (discoverFolds entries).length ∧
    (runMainLoop metrics entries).specificities.length = (discoverFolds entries).length ∧
    (runMainLoop metrics entries).macro_precisions.length = (discoverFolds entries).length ∧
    (runMainLoop metrics entries).macro_recalls.length = (discoverFolds entries).length ∧
    (runMainLoop metrics entries).macro_f1s.length = (discoverFolds entries).length ∧
    (runMainLoop metrics entries).accuracies_r.length = (discoverFolds entries).length ∧
    (runMainLoop metrics entries).kappa_scores_r.length = (discoverFolds entries).length ∧
    (runMainLoop metrics entries).sensitivities_r.length = (discoverFolds entries).length ∧
    (runMainLoop metrics entries).specificities_r.length = (discoverFolds entries).length ∧
    (runMainLoop metrics entries).precisions_r.length = (discoverFolds entries).length ∧
    (runMainLoop metrics entries).recalls_r.length = (discoverFolds entries).length ∧
    (runMainLoop metrics entries).f1s_r.length = (discoverFolds entries).length ∧
    (runMainLoop metrics entries).class_precisions.length = (discoverFolds entries).length ∧
    (runMainLoop metrics entries).class_recalls.length = (discoverFolds entries).length ∧
    (runMainLoop metrics entries).class_f1s.length = (discoverFolds entries).length ∧
    (discoverFolds entries).length
      = (entries.filter (fun x => x.startsWith "fold")).length := by
  refine ⟨?_, ?_, ?_, ?_, ?_, ?_, ?_, ?_, ?_, ?_, ?_, ?_, ?_, ?_, ?_, ?_, ?_, ?_, ?_⟩
  · have h := foldl_length_accuracies metrics
      (List.range (discoverFolds entries).length)
      (initMetricArrays (discoverFolds entries).length 4)
    simpa [runMainLoop, initMetricArrays] using h
  · have h := foldl_length_kappa_scores metrics
      (List.range (discoverFolds entries).length)
      (initMetricArrays (discoverFolds entries).length 4)
    simpa [runMainLoop, initMetricArrays] using h
  · have h := foldl_length_weighted_kappa_scores metrics
      (List.range (discoverFolds entries).length)
      (initMetricArrays (discoverFolds entries).length 4)
    simpa [runMainLoop, initMetricArrays] using h
  · have h := foldl_length_sensitivities metrics
      (List.range (discoverFolds entries).length)
      (initMetricArrays (discoverFolds entries).length 4)
    simpa [runMainLoop, initMetricArrays] using h
  · have h := foldl_length_specificities metrics
      (List.range (discoverFolds entries).length)
      (initMetricArrays (discoverFolds entries).length 4)
    simpa [runMainLoop, initMetricArrays] using h
  · have h := foldl_length_macro_precisions metrics
      (List.range (discoverFolds entries).length)
      (initMetricArrays (discoverFolds entries).length 4)
    simpa [runMainLoop, initMetricArrays] using h
  · have h := foldl_length_macro_recalls metrics
      (List.range (discoverFolds entries).length)
      (initMetricArrays (discoverFolds entries).length 4)
    simpa [runMainLoop, initMetricArrays] using h
  · have h := foldl_length_macro_f1s metrics
      (List.range (discoverFolds entries).length)
      (initMetricArrays (discoverFolds entries).length 4)
    simpa [runMainLoop, initMetricArrays] using h
  · have h := foldl_length_accuracies_r metrics
      (List.range (discoverFolds entries).length)
      (initMetricArrays (discoverFolds entries).length 4)
    simpa [runMainLoop, initMetricArrays] using h
  · have h := foldl_length_kappa_scores_r metrics
      (List.range (discoverFolds entries).length)
      (initMetricArrays (discoverFolds entries).length 4)
    simpa [runMainLoop, initMetricArrays] using h
  · have h := foldl_length_sensitivities_r metrics
      (List.range (discoverFolds entries).length)
      (initMetricArrays (discoverFolds entries).length 4)
    simpa [runMainLoop, initMetricArrays] using h
  · have h := foldl_length_specificities_r metrics
      (List.range (discoverFolds entries).length)
      (initMetricArrays (discoverFolds entries).length 4)
    simpa [runMainLoop, initMetricArrays] using h
  · have h := foldl_length_precisions_r metrics
      (List.range (discoverFolds entries).length)
      (initMetricArrays (discoverFolds entries).length 4)
    simpa [runMainLoop, initMetricArrays] using h
  · have h := foldl_length_recalls_r metrics
      (List.range (discoverFolds entries).length)
      (initMetricArrays (discoverFolds entries).length 4)
    simpa [runMainLoop, initMetricArrays] using h
  · have h := foldl_length_f1s_r metrics
      (List.range (discoverFolds entries).length)
      (initMetricArrays (discoverFolds entries).length 4)
    simpa [runMainLoop, initMetricArrays] using h
  · have h := foldl_length_class_precisions metrics
      (List.range (discoverFolds entries).length)
      (initMetricArrays (discoverFolds entries).length 4)
    simpa [runMainLoop, initMetricArrays] using h
  · have h := foldl_length_class_recalls metrics
      (List.range (discoverFolds entries).length)
      (initMetricArrays (discoverFolds entries).length 4)
    simpa [runMainLoop, initMetricArrays] using h
  · have h := foldl_length_class_f1s metrics
      (List.range (discoverFolds entries).length)
      (initMetricArrays (discoverFolds entries).length 4)
    simpa [runMainLoop, initMetricArrays] using h
  · simp [discoverFolds, List.length_mergeSort]
